import Mathlib

/-!
Shallow embedding of the order module of quickdish-backend
(`api/crud/order.py`) together with the parts of the data model it reads
(`api/models/*`, `api/crud/restaurant.get_restaurant`, and the
`api/schemas/order` payload types, modelled from the specification where
the repository file is not available).

Monetary amounts use `ℚ`: Python's `Decimal` arithmetic as used in the
module (addition of exact decimal values) is exact, and `ℚ` embeds every
decimal exactly.  Persistent state (the SQLAlchemy session's tables) is a
record of lists; a query `.first()` is `List.find?`, a query `.all()` is
`List.filter`, an `add` is an append, and the stateful functions thread
the database explicitly, returning the resulting database together with
an `Except` value standing for return-or-raise.
-/

namespace QuickDish

/-- Errors raised by the module (`api/errors`).  Each carries the
human-readable message built at the raise site. -/
inductive Err where
  | notFound (msg : String)
  | invalidArgument (msg : String)
  | unauthorized (msg : String)
  | internalServerError (msg : String)
deriving DecidableEq, Repr

/-- Actor role (`api/dependencies/id.Role`). -/
inductive Role where
  | CUSTOMER
  | MERCHANT
deriving DecidableEq, Repr

/-- Order status flag (`api/schemas/order.OrderStatusFlag`). -/
inductive OrderStatusFlag where
  | ORDERED
  | PREPARING
  | READY
  | SETTLED
  | CANCELLED
deriving DecidableEq, Repr

/-- Who cancelled an order (`api/schemas/order.OrderCancelledBy`). -/
inductive OrderCancelledBy where
  | CUSTOMER
  | MERCHANT
deriving DecidableEq, Repr

/-- `api/models/restaurant.Restaurant` (id, owning merchant). -/
structure Restaurant where
  id : Nat
  merchant_id : Nat
deriving DecidableEq, Repr

/-- `api/models/restaurant.Menu`: belongs to one restaurant, base price. -/
structure Menu where
  id : Nat
  restaurant_id : Nat
  price : ℚ
deriving DecidableEq, Repr

/-- `api/models/restaurant.Customization`: belongs to one menu, with the
`required` and `unique` flags. -/
structure Customization where
  id : Nat
  menu_id : Nat
  required : Bool
  unique : Bool
deriving DecidableEq, Repr

/-- `api/models/restaurant.Option`: belongs to one customization, optional
extra price.  Named `OptionRow` because `Option` is the Lean optional
type used for `extra_price`. -/
structure OptionRow where
  id : Nat
  customization_id : Nat
  extra_price : Option ℚ
deriving DecidableEq, Repr

/-- `api/models/order.Order` row. -/
structure Order where
  id : Nat
  customer_id : Nat
  restaurant_id : Nat
  ordered_at : Nat
  price_paid : ℚ
  status : OrderStatusFlag
deriving DecidableEq, Repr

/-- `api/models/order.OrderItem` row. -/
structure OrderItem where
  id : Nat
  order_id : Nat
  menu_id : Nat
  quantity : Int
  extra_requests : Option String
deriving DecidableEq, Repr

/-- `api/models/order.OrderOption` row. -/
structure OrderOption where
  order_item_id : Nat
  option_id : Nat
deriving DecidableEq, Repr

/-- `api/models/order.CancelledOrder` satellite row. -/
structure CancelledOrder where
  order_id : Nat
  cancelled_time : Nat
  cancelled_by : OrderCancelledBy
  reason : String
deriving DecidableEq, Repr

/-- `api/models/order.PreparingOrder` satellite row. -/
structure PreparingOrder where
  order_id : Nat
  prepared_at : Nat
deriving DecidableEq, Repr

/-- `api/models/order.ReadyOrder` satellite row. -/
structure ReadyOrder where
  order_id : Nat
  ready_at : Nat
deriving DecidableEq, Repr

/-- `api/models/order.SettledOrder` satellite row. -/
structure SettledOrder where
  order_id : Nat
  settled_at : Nat
deriving DecidableEq, Repr

/-- The persistent state visible to the module: one list per table. -/
structure DB where
  restaurants : List Restaurant
  menus : List Menu
  customizations : List Customization
  options : List OptionRow
  orders : List Order
  order_items : List OrderItem
  order_options : List OrderOption
  cancelled_orders : List CancelledOrder
  preparing_orders : List PreparingOrder
  ready_orders : List ReadyOrder
  settled_orders : List SettledOrder
deriving DecidableEq, Repr

/-- Modelled from the spec: `api/schemas/order.OrderOptionCreate` (a
selected option referenced by id) is not in the available sources; §3
OrderOption "references one Option actually selected at order time". -/
structure OrderOptionCreate where
  option_id : Nat
deriving DecidableEq, Repr

/-- Modelled from the spec: `api/schemas/order.OrderItemCreate` is not in
the available sources; §3 OrderItem has a menu reference, a quantity and
free-text extra requests, plus the selected options. -/
structure OrderItemCreate where
  menu_id : Nat
  quantity : Int
  extra_requests : Option String
  options : List OrderOptionCreate
deriving DecidableEq, Repr

/-- Modelled from the spec: `api/schemas/order.OrderCreate` is not in the
available sources; §3 an Order references one restaurant and owns the
line items. -/
structure OrderCreate where
  restaurant_id : Nat
  items : List OrderItemCreate
deriving DecidableEq, Repr

/-- Modelled from the spec: `api/schemas/order.OrderStatusUpdate` (the
union of `CancelledOrderUpdate`, `PreparingOrderUpdate`,
`ReadyOrderUpdate`, `SettledOrderUpdate`) is not in the available
sources; §4.2's transition table has exactly the update kinds Cancel
(carrying a reason), MarkPreparing, MarkReady and Settle. -/
inductive OrderStatusUpdate where
  | cancelled (reason : String)
  | preparing
  | ready
  | settled
deriving DecidableEq, Repr

/-- `api/schemas/order.OrderStatus`: the status payload returned by the
projection, a tagged union of the per-status schema records. -/
inductive OrderStatus where
  | ordered
  | cancelled (cancelled_by : OrderCancelledBy) (cancelled_time : Nat)
      (reason : String)
  | preparing (prepared_at : Nat)
  | ready (ready_at : Nat)
  | settled (settled_at : Nat)
deriving DecidableEq, Repr

/-! ### Error messages, as built at each raise site of `order.py` -/

/-- Line 57 of `order.py`: the string is a literal (the `f` prefix is
missing in the source), so the braces are part of the message. -/
def menuNotFoundMsg : String :=
  "menu with id \x7border.menu_id\x7d not found"

def menuNotInRestaurantMsg (menuId restaurantId : Nat) : String :=
  "menu with id " ++ toString menuId ++ " is not in restaurant with id "
    ++ toString restaurantId

def quantityMsg (menuId : Nat) : String :=
  "menu with id " ++ toString menuId ++ " must have a quantity of at least 1"

def optionNotFoundMsg (optionId : Nat) : String :=
  "the option with id " ++ toString optionId ++ " not found"

def optionNotInMenuMsg (optionId menuId : Nat) : String :=
  "the option with id " ++ toString optionId ++ " is not in menu with id "
    ++ toString menuId

def requiredMsg (menuId customizationId : Nat) : String :=
  "menu with id " ++ toString menuId ++ " requires customization with id "
    ++ toString customizationId

def uniqueMsg (menuId customizationId : Nat) : String :=
  "menu with id " ++ toString menuId ++ " requires customization with id "
    ++ toString customizationId ++ " to be unique"

/-- Line 312 of `order.py`: also a literal missing its `f` prefix. -/
def orderNotFoundMsg : String :=
  "order with id \x7border_id\x7d not found"

def restaurantNotFoundMsg (restaurantId : Nat) : String :=
  "restaurant with id " ++ toString restaurantId ++ " not found"

/-! ### Reads -/

/-- Modelled from the spec: `api/crud/restaurant.get_restaurant` is not in
the available sources; §6 gives its interface
`get_restaurant(id) -> Restaurant | NotFoundError`. -/
def get_restaurant (db : DB) (restaurant_id : Nat) : Except Err Restaurant :=
  match db.restaurants.find? (fun r => r.id == restaurant_id) with
  | none => .error (.notFound (restaurantNotFoundMsg restaurant_id))
  | some r => .ok r

/-- The joint query of lines 78-85:
`query(Option, Customization).filter((Option.id == option_id) &
(Customization.id == Option.customization_id)).first()` — resolve the
option row by id and join its customization; `None` when either is
missing. -/
def queryOptionCustomization (db : DB) (option_id : Nat) :
    Option (OptionRow × Customization) :=
  match db.options.find? (fun o => o.id == option_id) with
  | none => none
  | some o =>
    match db.customizations.find? (fun c => c.id == o.customization_id) with
    | none => none
    | some c => some (o, c)

/-! ### `create_order` validation (lines 50-134), one definition per
loop of the source -/

/-- Body of the option loop (lines 75-103): running state is the price
accumulator and the `seen_customizations` list. -/
def processOption (db : DB) (menu : Menu) (acc : ℚ × List Nat)
    (oc : OrderOptionCreate) : Except Err (ℚ × List Nat) :=
  match queryOptionCustomization db oc.option_id with
  | none => .error (.notFound (optionNotFoundMsg oc.option_id))
  | some (o, c) =>
    if c.menu_id ≠ menu.id then
      .error (.invalidArgument (optionNotInMenuMsg oc.option_id menu.id))
    else
      .ok (acc.1 + (match o.extra_price with
                    | some p => p
                    | none => 0),
           acc.2 ++ [c.id])

/-- The required-customizations loop (lines 114-118). -/
def checkRequired (menuId : Nat) (seen : List Nat) :
    List Customization → Except Err Unit
  | [] => .ok ()
  | c :: rest =>
    if seen.contains c.id then checkRequired menuId seen rest
    else .error (.invalidArgument (requiredMsg menuId c.id))

/-- The unique-customizations loop (lines 129-134). -/
def checkUnique (menuId : Nat) (seen : List Nat) :
    List Customization → Except Err Unit
  | [] => .ok ()
  | c :: rest =>
    if seen.count c.id > 1 then
      .error (.invalidArgument (uniqueMsg menuId c.id))
    else checkUnique menuId seen rest

/-- Body of the item loop (lines 50-134): menu existence, restaurant
match, quantity, the option loop, then the required and unique checks;
returns the updated price accumulator. -/
def validateItem (db : DB) (restaurant : Restaurant) (price : ℚ)
    (it : OrderItemCreate) : Except Err ℚ :=
  match db.menus.find? (fun m => m.id == it.menu_id) with
  | none => .error (.notFound menuNotFoundMsg)
  | some menu =>
    if menu.restaurant_id ≠ restaurant.id then
      .error (.invalidArgument
        (menuNotInRestaurantMsg it.menu_id restaurant.id))
    else if it.quantity < 1 then
      .error (.invalidArgument (quantityMsg it.menu_id))
    else
      match it.options.foldlM (processOption db menu)
          (price + menu.price, []) with
      | .error e => .error e
      | .ok acc =>
        match checkRequired menu.id acc.2
            (db.customizations.filter
              (fun c => c.menu_id == menu.id && c.required)) with
        | .error e => .error e
        | .ok _ =>
          match checkUnique menu.id acc.2
              (db.customizations.filter
                (fun c => c.menu_id == menu.id && c.unique)) with
          | .error e => .error e
          | .ok _ => .ok acc.1

/-- The item loop itself, threading the price accumulator. -/
def validateItems (db : DB) (restaurant : Restaurant) :
    List OrderItemCreate → ℚ → Except Err ℚ
  | [], price => .ok price
  | it :: rest, price =>
    match validateItem db restaurant price it with
    | .error e => .error e
    | .ok price' => validateItems db restaurant rest price'

/-! ### `create_order` writes (lines 136-169) -/

/-- Generated primary key for a new `Order` row (autoincrement). -/
def nextOrderId (db : DB) : Nat :=
  db.orders.foldl (fun m o => max m o.id) 0 + 1

/-- Generated primary key for a new `OrderItem` row (autoincrement). -/
def nextOrderItemId (db : DB) : Nat :=
  db.order_items.foldl (fun m o => max m o.id) 0 + 1

/-- Persist one line item and its selected options (lines 149-167). -/
def writeItem (order_id : Nat) (db : DB) (it : OrderItemCreate) : DB :=
  let item : OrderItem :=
    { id := nextOrderItemId db, order_id := order_id,
      menu_id := it.menu_id, quantity := it.quantity,
      extra_requests := it.extra_requests }
  let db := { db with order_items := db.order_items ++ [item] }
  { db with
    order_options := db.order_options ++
      it.options.map (fun oc =>
        { order_item_id := item.id, option_id := oc.option_id }) }

/-- `create_order` (lines 40-169): validation of every item completes
before the first write; on success the `Order` row (status ORDERED,
computed `price_paid`) and then the items and options are persisted. -/
def create_order (db : DB) (customer_id : Nat) (payload : OrderCreate)
    (now : Nat) : DB × Except Err Nat :=
  match get_restaurant db payload.restaurant_id with
  | .error e => (db, .error e)
  | .ok restaurant =>
    match validateItems db restaurant payload.items 0 with
    | .error e => (db, .error e)
    | .ok price_paid =>
      let oid := nextOrderId db
      let sql_order : Order :=
        { id := oid, customer_id := customer_id,
          restaurant_id := restaurant.id, ordered_at := now,
          price_paid := price_paid, status := .ORDERED }
      let db := { db with orders := db.orders ++ [sql_order] }
      (payload.items.foldl (writeItem oid) db, .ok oid)

/-! ### Status projection (`__get_status_no_validation`, lines 172-235) -/

def getStatusNoValidation (db : DB) (order : Order) : Except Err OrderStatus :=
  match order.status with
  | .ORDERED => .ok .ordered
  | .CANCELLED =>
    match db.cancelled_orders.find? (fun c => c.order_id == order.id) with
    | none => .error (.internalServerError "can't find the cancelled order")
    | some c => .ok (.cancelled c.cancelled_by c.cancelled_time c.reason)
  | .PREPARING =>
    match db.preparing_orders.find? (fun p => p.order_id == order.id) with
    | none => .error (.internalServerError "can't find the preparing order")
    | some p => .ok (.preparing p.prepared_at)
  | .READY =>
    match db.ready_orders.find? (fun r => r.order_id == order.id) with
    | none => .error (.internalServerError "can't find the ready order")
    | some r => .ok (.ready r.ready_at)
  | .SETTLED =>
    match db.settled_orders.find? (fun s => s.order_id == order.id) with
    | none => .error (.internalServerError "can't find the settled order")
    | some s => .ok (.settled s.settled_at)

/-! ### Order resolution and authorization
(`__get_order_with_validation`, lines 303-332) -/

def getOrderWithValidation (db : DB) (user_id : Nat) (role : Role)
    (order_id : Nat) : Except Err Order :=
  match db.orders.find? (fun o => o.id == order_id) with
  | none => .error (.notFound orderNotFoundMsg)
  | some order =>
    match role with
    | .CUSTOMER =>
      if order.customer_id ≠ user_id then
        .error (.unauthorized "customer does not own the order")
      else .ok order
    | .MERCHANT =>
      match db.restaurants.find?
          (fun r => r.merchant_id == user_id
            && r.id == order.restaurant_id) with
      | none => .error (.unauthorized "merchant does not own the order")
      | some _ => .ok order

/-- `get_order_status` (lines 335-340). -/
def get_order_status (db : DB) (user_id : Nat) (role : Role)
    (order_id : Nat) : Except Err OrderStatus :=
  match getOrderWithValidation db user_id role order_id with
  | .error e => .error e
  | .ok order => getStatusNoValidation db order

/-! ### Status machine (`update_order_status`, lines 343-428) -/

/-- `order.status = flag` on the fetched row followed by `commit`:
every row with this id is updated. -/
def setStatus (db : DB) (order_id : Nat) (flag : OrderStatusFlag) : DB :=
  { db with orders := db.orders.map (fun o =>
      if o.id == order_id then { o with status := flag } else o) }

/-- `update_order_status` (lines 343-428).  The match arms appear in the
source's order; Python's `match` picks the first matching case, as does
Lean's. -/
def update_order_status (db : DB) (user_id : Nat) (role : Role)
    (order_id : Nat) (status : OrderStatusUpdate) (now : Nat) :
    DB × Except Err Unit :=
  match getOrderWithValidation db user_id role order_id with
  | .error e => (db, .error e)
  | .ok order =>
    match role, order.status, status with
    | .CUSTOMER, .ORDERED, .cancelled reason =>
      (setStatus
        { db with cancelled_orders := db.cancelled_orders ++
            [{ order_id := order.id, cancelled_time := now,
               cancelled_by := .CUSTOMER, reason := reason }] }
        order.id .CANCELLED, .ok ())
    | .CUSTOMER, .READY, .settled =>
      (setStatus
        { db with settled_orders := db.settled_orders ++
            [{ order_id := order.id, settled_at := now }] }
        order.id .SETTLED, .ok ())
    | .CUSTOMER, _, .cancelled _ =>
      (db, .error (.invalidArgument "order can't be cancelled anymore"))
    | .CUSTOMER, _, .settled =>
      (db, .error (.invalidArgument
        "order can only be settled when it's ready"))
    | .CUSTOMER, _, _ =>
      (db, .error (.invalidArgument
        "only cancellation or settled are allowed"))
    | .MERCHANT, .ORDERED, .preparing =>
      (setStatus
        { db with preparing_orders := db.preparing_orders ++
            [{ order_id := order.id, prepared_at := now }] }
        order.id .PREPARING, .ok ())
    | .MERCHANT, _, .preparing =>
      (db, .error (.invalidArgument "order can be prepared only once"))
    | .MERCHANT, .PREPARING, .ready =>
      (setStatus
        { db with ready_orders := db.ready_orders ++
            [{ order_id := order.id, ready_at := now }] }
        order.id .READY, .ok ())
    | .MERCHANT, _, .ready =>
      (db, .error (.invalidArgument "order can be ready after it's prepared"))
    | .MERCHANT, .PREPARING, .cancelled reason
    | .MERCHANT, .ORDERED, .cancelled reason =>
      (setStatus
        { db with cancelled_orders := db.cancelled_orders ++
            [{ order_id := order.id, cancelled_time := now,
               cancelled_by := .MERCHANT, reason := reason }] }
        order.id .CANCELLED, .ok ())
    | .MERCHANT, _, .cancelled _ =>
      (db, .error (.invalidArgument "order can't be cancelled anymore"))
    | .MERCHANT, _, .settled =>
      (db, .error (.invalidArgument "order can't be settled by merchant"))

instance {ε α : Type} [DecidableEq ε] [DecidableEq α] :
    DecidableEq (Except ε α) := fun a b =>
  match a, b with
  | .ok x, .ok y =>
    if h : x = y then .isTrue (by rw [h])
    else .isFalse (by intro hc; cases hc; exact h rfl)
  | .error x, .error y =>
    if h : x = y then .isTrue (by rw [h])
    else .isFalse (by intro hc; cases hc; exact h rfl)
  | .ok _, .error _ => .isFalse (by intro hc; cases hc)
  | .error _, .ok _ => .isFalse (by intro hc; cases hc)

/-! ### Specification-side price definition

Following the words of the specification (§8: "`price_paid` equals the
sum of each line item's menu base price plus the extra price of every
selected option"), to be compared with the price computed by
`create_order`. -/

/-- The extra price contributed by one selected option: the referenced
option's extra price when it has one, `0` otherwise. -/
def specOptionExtra (db : DB) (oc : OrderOptionCreate) : ℚ :=
  match db.options.find? (fun o => o.id == oc.option_id) with
  | some o => o.extra_price.getD 0
  | none => 0

/-- A line item's total per the spec: its menu's base price plus the
extra prices of its selected options. -/
def specItemTotal (db : DB) (it : OrderItemCreate) : ℚ :=
  (match db.menus.find? (fun m => m.id == it.menu_id) with
   | some m => m.price
   | none => 0)
  + (it.options.map (specOptionExtra db)).sum

/-- The order total per the spec: the sum over the payload's line items. -/
def specOrderTotal (db : DB) (payload : OrderCreate) : ℚ :=
  (payload.items.map (specItemTotal db)).sum

/-! ### Satellite-record counting and the consistency invariant -/

/-- Number of `CancelledOrder` rows for a given order id. -/
def countCancelled (db : DB) (oid : Nat) : Nat :=
  (db.cancelled_orders.filter (fun c => c.order_id == oid)).length

/-- Number of `PreparingOrder` rows for a given order id. -/
def countPreparing (db : DB) (oid : Nat) : Nat :=
  (db.preparing_orders.filter (fun p => p.order_id == oid)).length

/-- Number of `ReadyOrder` rows for a given order id. -/
def countReady (db : DB) (oid : Nat) : Nat :=
  (db.ready_orders.filter (fun r => r.order_id == oid)).length

/-- Number of `SettledOrder` rows for a given order id. -/
def countSettled (db : DB) (oid : Nat) : Nat :=
  (db.settled_orders.filter (fun s => s.order_id == oid)).length

/-- The satellite count of the kind matching an order's current status
(`0` for ORDERED, which has no satellite kind). -/
def matchingSatCount (db : DB) (o : Order) : Nat :=
  match o.status with
  | .ORDERED => 0
  | .PREPARING => countPreparing db o.id
  | .READY => countReady db o.id
  | .SETTLED => countSettled db o.id
  | .CANCELLED => countCancelled db o.id

/-- Per-order satellite bookkeeping strong enough to push through every
transition: an ORDERED order has no satellites at all; PREPARING has
exactly its preparing row and no later-stage or cancelled row; READY has
exactly its ready row, no settled and no cancelled row; the terminal
statuses have exactly their own row. -/
def SatCounts (db : DB) (o : Order) : Prop :=
  match o.status with
  | .ORDERED =>
    countCancelled db o.id = 0 ∧ countPreparing db o.id = 0 ∧
      countReady db o.id = 0 ∧ countSettled db o.id = 0
  | .PREPARING =>
    countPreparing db o.id = 1 ∧ countReady db o.id = 0 ∧
      countSettled db o.id = 0 ∧ countCancelled db o.id = 0
  | .READY =>
    countReady db o.id = 1 ∧ countSettled db o.id = 0 ∧
      countCancelled db o.id = 0
  | .SETTLED => countSettled db o.id = 1
  | .CANCELLED => countCancelled db o.id = 1

/-- Every satellite row belongs to an existing order. -/
def SatOwned (db : DB) : Prop :=
  (∀ c ∈ db.cancelled_orders, ∃ o ∈ db.orders, o.id = c.order_id) ∧
  (∀ p ∈ db.preparing_orders, ∃ o ∈ db.orders, o.id = p.order_id) ∧
  (∀ r ∈ db.ready_orders, ∃ o ∈ db.orders, o.id = r.order_id) ∧
  (∀ s ∈ db.settled_orders, ∃ o ∈ db.orders, o.id = s.order_id)

/-- The inductive invariant: order ids are pairwise distinct, satellites
belong to existing orders, and each order's satellite counts agree with
its status. -/
def StrongInv (db : DB) : Prop :=
  db.orders.Pairwise (fun a b => a.id ≠ b.id) ∧ SatOwned db ∧
    ∀ o ∈ db.orders, SatCounts db o

/-- States reachable from a state with no orders and no satellites (the
restaurant/menu side is arbitrary) through the module's two mutating
operations. -/
inductive Reachable : DB → Prop where
  | init (db : DB) :
      db.orders = [] → db.cancelled_orders = [] →
      db.preparing_orders = [] → db.ready_orders = [] →
      db.settled_orders = [] → Reachable db
  | create (db : DB) (cid : Nat) (p : OrderCreate) (now : Nat) :
      Reachable db → Reachable (create_order db cid p now).1
  | update (db : DB) (u : Nat) (role : Role) (oid : Nat)
      (upd : OrderStatusUpdate) (now : Nat) :
      Reachable db → Reachable (update_order_status db u role oid upd now).1

/-- The satellite kind a successful update writes has no pre-existing row
for this order (what `StrongInv` guarantees at each legal transition's
source status). -/
def noPriorSat (db : DB) (oid : Nat) : OrderStatusUpdate → Prop
  | .cancelled _ =>
    db.cancelled_orders.find? (fun c => c.order_id == oid) = none
  | .preparing =>
    db.preparing_orders.find? (fun p => p.order_id == oid) = none
  | .ready => db.ready_orders.find? (fun r => r.order_id == oid) = none
  | .settled => db.settled_orders.find? (fun s => s.order_id == oid) = none

/-- The status payload corresponding to the satellite row a successful
update writes: the actor's role fixes `cancelled_by`, the transition
timestamp fills the time field, and a cancellation carries its reason. -/
def writtenStatus (role : Role) (upd : OrderStatusUpdate) (now : Nat) :
    OrderStatus :=
  match upd with
  | .cancelled reason =>
    .cancelled (match role with
                | .CUSTOMER => .CUSTOMER
                | .MERCHANT => .MERCHANT) now reason
  | .preparing => .preparing now
  | .ready => .ready now
  | .settled => .settled now

/-! ### Concrete fixtures (one restaurant, one menu with a required and
a unique customization) used to evaluate the theorems on closed inputs -/

def db0 : DB :=
  { restaurants := [{ id := 1, merchant_id := 7 }]
    menus := [{ id := 10, restaurant_id := 1, price := 8 }]
    customizations :=
      [{ id := 100, menu_id := 10, required := true, unique := false },
       { id := 200, menu_id := 10, required := false, unique := true }]
    options :=
      [{ id := 1000, customization_id := 100, extra_price := some (3/2) },
       { id := 2000, customization_id := 200, extra_price := some (3/4) },
       { id := 2001, customization_id := 200, extra_price := none }]
    orders := [], order_items := [], order_options := []
    cancelled_orders := [], preparing_orders := []
    ready_orders := [], settled_orders := [] }

/-- A valid payload: one item, quantity 2, Large (+3/2) and extra cheese
(+3/4) selected. -/
def payloadOK : OrderCreate :=
  { restaurant_id := 1
    items := [{ menu_id := 10, quantity := 2, extra_requests := none,
                options := [{ option_id := 1000 }, { option_id := 2000 }] }] }

/-- `payloadOK` with the quantity changed from 2 to 5. -/
def payloadQty5 : OrderCreate :=
  { restaurant_id := 1
    items := [{ menu_id := 10, quantity := 5, extra_requests := none,
                options := [{ option_id := 1000 }, { option_id := 2000 }] }] }

/-- One item whose selected option id 999 does not exist, while menu 10's
required customization 100 has none of its options selected. -/
def payloadBadOption : OrderCreate :=
  { restaurant_id := 1
    items := [{ menu_id := 10, quantity := 1, extra_requests := none,
                options := [{ option_id := 999 }] }] }

/-- One item selecting only an option of the unique customization 200,
omitting the required customization 100. -/
def payloadMissingRequired : OrderCreate :=
  { restaurant_id := 1
    items := [{ menu_id := 10, quantity := 1, extra_requests := none,
                options := [{ option_id := 2000 }] }] }

/-- One item selecting the required customization once and two options of
the unique customization 200. -/
def payloadDupUnique : OrderCreate :=
  { restaurant_id := 1
    items := [{ menu_id := 10, quantity := 1, extra_requests := none,
                options := [{ option_id := 1000 }, { option_id := 2000 },
                            { option_id := 2001 }] }] }

/-- One item selecting two options of the unique customization 200 while
omitting the required customization 100. -/
def payloadDupUniqueMissingReq : OrderCreate :=
  { restaurant_id := 1
    items := [{ menu_id := 10, quantity := 1, extra_requests := none,
                options := [{ option_id := 2000 },
                            { option_id := 2001 }] }] }

/-- One item with a menu id that does not exist and quantity 0. -/
def payloadBadMenuQty : OrderCreate :=
  { restaurant_id := 1
    items := [{ menu_id := 99, quantity := 0, extra_requests := none,
                options := [] }] }

/-- The state after customer 5 successfully places `payloadOK`. -/
def db1 : DB := (create_order db0 5 payloadOK 111).1

/-- The state after customer 5 then cancels order 1. -/
def db2 : DB :=
  (update_order_status db1 5 .CUSTOMER 1 (.cancelled "changed my mind")
    222).1

/-- The order row created in `db1` (price 8 + 3/2 + 3/4, i.e. 41/4,
written as the accumulator's exact computation). -/
def order1 : Order :=
  { id := 1, customer_id := 5, restaurant_id := 1, ordered_at := 111,
    price_paid := 0 + 8 + 3/2 + 3/4, status := .ORDERED }

/-- `order1` after cancellation. -/
def order1c : Order :=
  { id := 1, customer_id := 5, restaurant_id := 1, ordered_at := 111,
    price_paid := 0 + 8 + 3/2 + 3/4, status := .CANCELLED }

/-! ## Helper lemmas -/

/-- The write phase of `create_order` touches only the `order_items` and
`order_options` tables. -/
theorem writeItem_foldl_proj (oid : Nat) (l : List OrderItemCreate) :
    ∀ db : DB,
      ((l.foldl (writeItem oid) db).restaurants = db.restaurants) ∧
      ((l.foldl (writeItem oid) db).menus = db.menus) ∧
      ((l.foldl (writeItem oid) db).customizations = db.customizations) ∧
      ((l.foldl (writeItem oid) db).options = db.options) ∧
      ((l.foldl (writeItem oid) db).orders = db.orders) ∧
      ((l.foldl (writeItem oid) db).cancelled_orders
        = db.cancelled_orders) ∧
      ((l.foldl (writeItem oid) db).preparing_orders
        = db.preparing_orders) ∧
      ((l.foldl (writeItem oid) db).ready_orders = db.ready_orders) ∧
      ((l.foldl (writeItem oid) db).settled_orders = db.settled_orders) := by
  induction l with
  | nil => intro db; exact ⟨rfl, rfl, rfl, rfl, rfl, rfl, rfl, rfl, rfl⟩
  | cons it rest ih => intro db; exact ih (writeItem oid db it)

/-- In a list of orders with pairwise distinct ids, an id determines the
element. -/
theorem order_eq_of_id_eq {l : List Order}
    (hp : l.Pairwise (fun a b => a.id ≠ b.id)) :
    ∀ {a b : Order}, a ∈ l → b ∈ l → a.id = b.id → a = b := by
  induction l with
  | nil => intro a b ha; cases ha
  | cons x xs ih =>
    intro a b ha hb hab
    rcases List.mem_cons.1 ha with rfl | ha' <;>
      rcases List.mem_cons.1 hb with rfl | hb'
    · rfl
    · exact absurd hab ((List.pairwise_cons.1 hp).1 b hb')
    · exact absurd hab.symm ((List.pairwise_cons.1 hp).1 a ha')
    · exact ih (List.pairwise_cons.1 hp).2 ha' hb' hab

/-- The accumulator of the id-maximum fold only grows. -/
theorem foldl_max_init_le (l : List Order) :
    ∀ acc : Nat, acc ≤ l.foldl (fun m o => max m o.id) acc := by
  induction l with
  | nil => intro acc; exact Nat.le_refl acc
  | cons x xs ih =>
    intro acc
    exact le_trans (Nat.le_max_left acc x.id) (ih (max acc x.id))

/-- Every member's id is bounded by the id-maximum fold. -/
theorem id_le_foldl_max (l : List Order) :
    ∀ (acc : Nat) (o : Order), o ∈ l →
      o.id ≤ l.foldl (fun m o => max m o.id) acc := by
  induction l with
  | nil => intro acc o ho; cases ho
  | cons x xs ih =>
    intro acc o ho
    rcases List.mem_cons.1 ho with rfl | ho'
    · exact le_trans (Nat.le_max_right acc o.id) (foldl_max_init_le xs _)
    · exact ih (max acc x.id) o ho'

/-- The generated id of a new order differs from every existing order's. -/
theorem nextOrderId_fresh {db : DB} {o : Order} (ho : o ∈ db.orders) :
    o.id ≠ nextOrderId db := by
  have := id_le_foldl_max db.orders 0 o ho
  unfold nextOrderId
  omega

/-- If the search in a first list fails, searching the concatenation
searches the second list. -/
theorem find?_append_of_none {α : Type} {l₁ l₂ : List α} {p : α → Bool}
    (h : l₁.find? p = none) : (l₁ ++ l₂).find? p = l₂.find? p := by
  rw [List.find?_append, h, Option.none_or]

/-! ## C1: the persisted price -/

/-- A successful option-loop step adds exactly the option's extra price
(0 when it has none) to the accumulator. -/
theorem processOption_price {db : DB} {menu : Menu} {acc acc' : ℚ × List Nat}
    {oc : OrderOptionCreate}
    (h : processOption db menu acc oc = .ok acc') :
    acc'.1 = acc.1 + specOptionExtra db oc := by
  unfold processOption at h
  cases hq : queryOptionCustomization db oc.option_id with
  | none => simp only [hq] at h; cases h
  | some pr =>
    obtain ⟨o, c⟩ := pr
    simp only [hq] at h
    by_cases hm : c.menu_id ≠ menu.id
    · rw [if_pos hm] at h; cases h
    · rw [if_neg hm] at h
      have hfind : db.options.find? (fun o => o.id == oc.option_id)
          = some o := by
        unfold queryOptionCustomization at hq
        cases hf : db.options.find? (fun o => o.id == oc.option_id) with
        | none => rw [hf] at hq; cases hq
        | some o₀ =>
          rw [hf] at hq
          have hq2 : (match db.customizations.find?
                (fun c => c.id == o₀.customization_id) with
              | none => (none : Option (OptionRow × Customization))
              | some c => some (o₀, c)) = some (o, c) := hq
          cases hc : db.customizations.find?
              (fun c => c.id == o₀.customization_id) with
          | none => rw [hc] at hq2; cases hq2
          | some c₀ =>
            rw [hc] at hq2
            simp only [Option.some.injEq, Prod.mk.injEq] at hq2
            rw [hq2.1]
      have hspec : specOptionExtra db oc = o.extra_price.getD 0 := by
        unfold specOptionExtra
        rw [hfind]
      cases h
      rw [hspec]
      cases he : o.extra_price <;> simp [he]

/-- A successful run of the option loop adds the sum of the selected
options' extra prices. -/
theorem foldlM_processOption_price {db : DB} {menu : Menu} :
    ∀ (opts : List OrderOptionCreate) (acc acc' : ℚ × List Nat),
      opts.foldlM (processOption db menu) acc = .ok acc' →
      acc'.1 = acc.1 + (opts.map (specOptionExtra db)).sum := by
  intro opts
  induction opts with
  | nil =>
    intro acc acc' h
    cases h
    simp
  | cons oc rest ih =>
    intro acc acc' h
    rw [List.foldlM_cons] at h
    cases hp : processOption db menu acc oc with
    | error e => rw [hp] at h; cases h
    | ok a =>
      rw [hp] at h
      have h' : rest.foldlM (processOption db menu) a = .ok acc' := h
      have h1 := ih a acc' h'
      have h2 := processOption_price hp
      rw [h1, h2]
      simp only [List.map_cons, List.sum_cons]
      ring

/-- A successful item validation adds the menu base price plus the
option extras: the spec-side line-item total. -/
theorem validateItem_price {db : DB} {r : Restaurant} {q q' : ℚ}
    {it : OrderItemCreate} (h : validateItem db r q it = .ok q') :
    q' = q + specItemTotal db it := by
  unfold validateItem at h
  cases hm : db.menus.find? (fun m => m.id == it.menu_id) with
  | none => simp only [hm] at h; cases h
  | some menu =>
    simp only [hm] at h
    by_cases h1 : menu.restaurant_id ≠ r.id
    · rw [if_pos h1] at h; cases h
    · rw [if_neg h1] at h
      by_cases h2 : it.quantity < 1
      · rw [if_pos h2] at h; cases h
      · rw [if_neg h2] at h
        cases hacc : it.options.foldlM (processOption db menu)
            (q + menu.price, []) with
        | error e => simp only [hacc] at h; cases h
        | ok acc =>
          simp only [hacc] at h
          cases hreq : checkRequired menu.id acc.2
              (db.customizations.filter
                (fun c => c.menu_id == menu.id && c.required)) with
          | error e => simp only [hreq] at h; cases h
          | ok u =>
            simp only [hreq] at h
            cases hun : checkUnique menu.id acc.2
                (db.customizations.filter
                  (fun c => c.menu_id == menu.id && c.unique)) with
            | error e => simp only [hun] at h; cases h
            | ok u' =>
              simp only [hun, Except.ok.injEq] at h
              rw [← h]
              have := foldlM_processOption_price it.options _ _ hacc
              rw [this]
              unfold specItemTotal
              rw [hm]
              ring

/-- A successful run of the item loop adds the sum of the spec-side
line-item totals. -/
theorem validateItems_price {db : DB} {r : Restaurant} :
    ∀ (items : List OrderItemCreate) (q q' : ℚ),
      validateItems db r items q = .ok q' →
      q' = q + (items.map (specItemTotal db)).sum := by
  intro items
  induction items with
  | nil =>
    intro q q' h
    cases h
    simp
  | cons it rest ih =>
    intro q q' h
    unfold validateItems at h
    cases hv : validateItem db r q it with
    | error e => simp only [hv] at h; cases h
    | ok q1 =>
      simp only [hv] at h
      rw [ih q1 q' h, validateItem_price hv]
      simp only [List.map_cons, List.sum_cons]
      ring

/-- C1: for every order payload that passes validation, `create_order`
persists the order with `price_paid` equal to the sum, over the
payload's line items, of the item's menu base price plus the extra price
of every selected option that has one, in exact arithmetic. -/
theorem create_order_price_paid (db : DB) (cid : Nat)
    (payload : OrderCreate) (now : Nat) (oid : Nat)
    (h : (create_order db cid payload now).2 = .ok oid) :
    ∃ o : Order,
      (create_order db cid payload now).1.orders = db.orders ++ [o] ∧
      o.id = oid ∧ o.status = .ORDERED ∧
      o.price_paid = specOrderTotal db payload := by
  unfold create_order at h ⊢
  cases hr : get_restaurant db payload.restaurant_id with
  | error e => simp only [hr] at h; cases h
  | ok r =>
    simp only [hr] at h ⊢
    cases hv : validateItems db r payload.items 0 with
    | error e => simp only [hv] at h; cases h
    | ok price =>
      simp only [hv, Except.ok.injEq] at h ⊢
      refine ⟨{ id := nextOrderId db, customer_id := cid,
                restaurant_id := r.id, ordered_at := now,
                price_paid := price, status := .ORDERED },
              ?_, h, rfl, ?_⟩
      · exact ((writeItem_foldl_proj _ payload.items _).2.2.2.2.1)
      · have hsum := validateItems_price payload.items 0 price hv
        show price = specOrderTotal db payload
        rw [hsum]
        unfold specOrderTotal
        ring

/-- Witness for C1 on the concrete fixture: customer 5 orders menu 10
(price 8) with options +3/2 and +3/4. -/
theorem create_order_price_paid_witness :
    ∃ o : Order,
      (create_order db0 5 payloadOK 111).1.orders = db0.orders ++ [o] ∧
      o.id = 1 ∧ o.status = .ORDERED ∧
      o.price_paid = specOrderTotal db0 payloadOK :=
  create_order_price_paid db0 5 payloadOK 111 1 rfl

/-! ## C2: all-or-nothing creation -/

/-- C2: when any validation step of `create_order` fails, the operation
raises and the state is unchanged — in particular zero new rows in
`Order`, `OrderItem` and `OrderOption`; every write happens only after
validation of all items succeeded. -/
theorem create_order_error_no_writes (db : DB) (cid : Nat)
    (payload : OrderCreate) (now : Nat) (e : Err)
    (h : (create_order db cid payload now).2 = .error e) :
    (create_order db cid payload now).1 = db ∧
    (create_order db cid payload now).1.orders = db.orders ∧
    (create_order db cid payload now).1.order_items = db.order_items ∧
    (create_order db cid payload now).1.order_options
      = db.order_options := by
  unfold create_order at h ⊢
  cases hr : get_restaurant db payload.restaurant_id with
  | error e' => simp [hr]
  | ok r =>
    simp only [hr] at h ⊢
    cases hv : validateItems db r payload.items 0 with
    | error e' => simp [hv]
    | ok price => simp only [hv] at h; cases h

/-- Witness for C2: a payload whose selected option id 999 does not
exist fails and leaves the fixture state untouched. -/
theorem create_order_error_no_writes_witness :
    (create_order db0 5 payloadBadOption 111).1 = db0 ∧
    (create_order db0 5 payloadBadOption 111).1.orders = db0.orders ∧
    (create_order db0 5 payloadBadOption 111).1.order_items
      = db0.order_items ∧
    (create_order db0 5 payloadBadOption 111).1.order_options
      = db0.order_options :=
  create_order_error_no_writes db0 5 payloadBadOption 111
    (.notFound (optionNotFoundMsg 999)) rfl

/-! ## C3 and C4: the transition machine -/

/-- A successfully resolved-and-authorized order is the one the id search
finds. -/
theorem getOrderWithValidation_ok {db : DB} {u : Nat} {role : Role}
    {oid : Nat} {order : Order}
    (h : getOrderWithValidation db u role oid = .ok order) :
    db.orders.find? (fun o => o.id == oid) = some order := by
  unfold getOrderWithValidation at h
  cases hf : db.orders.find? (fun o => o.id == oid) with
  | none => simp only [hf] at h; cases h
  | some o' =>
    simp only [hf] at h
    cases role with
    | CUSTOMER =>
      by_cases hc : o'.customer_id ≠ u
      · rw [if_pos hc] at h; cases h
      · rw [if_neg hc] at h; cases h; rfl
    | MERCHANT =>
      cases hr : db.restaurants.find?
          (fun r => r.merchant_id == u && r.id == o'.restaurant_id) with
      | none => simp only [hr] at h; cases h
      | some r => simp only [hr] at h; cases h; rfl

/-- C3: against an order whose current status is ORDERED, an authorized
actor's update succeeds exactly for (CUSTOMER, Cancel),
(MERCHANT, MarkPreparing) and (MERCHANT, Cancel); every other
(role, update) pair raises `InvalidArgumentError` and leaves the state —
in particular the order's ORDERED status — unchanged. -/
theorem update_from_ordered (db : DB) (u : Nat) (role : Role) (oid : Nat)
    (upd : OrderStatusUpdate) (now : Nat) (order : Order)
    (hget : getOrderWithValidation db u role oid = .ok order)
    (hst : order.status = .ORDERED) :
    ((update_order_status db u role oid upd now).2 = .ok () ↔
      (role = .CUSTOMER ∧ ∃ r, upd = .cancelled r) ∨
      (role = .MERCHANT ∧
        (upd = .preparing ∨ ∃ r, upd = .cancelled r))) ∧
    ((update_order_status db u role oid upd now).2 ≠ .ok () →
      (∃ m, (update_order_status db u role oid upd now).2
        = .error (.invalidArgument m)) ∧
      (update_order_status db u role oid upd now).1 = db ∧
      (update_order_status db u role oid upd now).1.orders.find?
        (fun o => o.id == oid) = some order) := by
  have hfind := getOrderWithValidation_ok hget
  cases role <;> cases upd <;>
    simp [update_order_status, hget, hst, hfind]

/-- Witness for C3: customer 5 cancels the freshly placed ORDERED order 1
in `db1`; the success side of the equivalence holds. -/
theorem update_from_ordered_witness :
    (((update_order_status db1 5 .CUSTOMER 1 (.cancelled "no") 222).2
        = .ok ()) ↔
      (Role.CUSTOMER = .CUSTOMER ∧
        ∃ r, OrderStatusUpdate.cancelled "no" = .cancelled r) ∨
      (Role.CUSTOMER = .MERCHANT ∧
        (OrderStatusUpdate.cancelled "no" = .preparing ∨
          ∃ r, OrderStatusUpdate.cancelled "no" = .cancelled r))) ∧
    ((update_order_status db1 5 .CUSTOMER 1 (.cancelled "no") 222).2
        ≠ .ok () →
      (∃ m, (update_order_status db1 5 .CUSTOMER 1 (.cancelled "no")
        222).2 = .error (.invalidArgument m)) ∧
      (update_order_status db1 5 .CUSTOMER 1 (.cancelled "no") 222).1
        = db1 ∧
      (update_order_status db1 5 .CUSTOMER 1 (.cancelled "no")
        222).1.orders.find? (fun o => o.id == 1) = some order1) :=
  update_from_ordered db1 5 .CUSTOMER 1 (.cancelled "no") 222 order1
    (by rfl) rfl

/-- C4: an order whose status is CANCELLED or SETTLED never changes
status again: every authorized request raises `InvalidArgumentError` and
leaves the state, hence the order's status, unchanged. -/
theorem update_terminal_rejected (db : DB) (u : Nat) (role : Role)
    (oid : Nat) (upd : OrderStatusUpdate) (now : Nat) (order : Order)
    (hget : getOrderWithValidation db u role oid = .ok order)
    (hst : order.status = .CANCELLED ∨ order.status = .SETTLED) :
    (∃ m, (update_order_status db u role oid upd now).2
      = .error (.invalidArgument m)) ∧
    (update_order_status db u role oid upd now).1 = db ∧
    (update_order_status db u role oid upd now).1.orders.find?
      (fun o => o.id == oid) = some order := by
  have hfind := getOrderWithValidation_ok hget
  rcases hst with hst | hst <;> cases role <;> cases upd <;>
    simp [update_order_status, hget, hst, hfind]

/-- Witness for C4: in `db2` order 1 is CANCELLED; the customer's settle
request is rejected with `InvalidArgumentError` and the state is
unchanged. -/
theorem update_terminal_rejected_witness :
    (∃ m, (update_order_status db2 5 .CUSTOMER 1 .settled 333).2
      = .error (.invalidArgument m)) ∧
    (update_order_status db2 5 .CUSTOMER 1 .settled 333).1 = db2 ∧
    (update_order_status db2 5 .CUSTOMER 1 .settled 333).1.orders.find?
      (fun o => o.id == 1) = some order1c :=
  update_terminal_rejected db2 5 .CUSTOMER 1 .settled 333 order1c
    (by rfl) (.inl rfl)

/-! ## C6 and C7: required and unique customization violations -/

/-- The required-customizations loop raises on the first customization
whose id is not among the seen ones. -/
theorem checkRequired_error {menuId : Nat} {seen : List Nat} :
    ∀ {l : List Customization} {c : Customization},
      l.find? (fun c => !(seen.contains c.id)) = some c →
      checkRequired menuId seen l
        = .error (.invalidArgument (requiredMsg menuId c.id)) := by
  intro l
  induction l with
  | nil => intro c h; cases h
  | cons x xs ih =>
    intro c h
    unfold checkRequired
    by_cases hx : seen.contains x.id
    · rw [if_pos hx]
      rw [List.find?_cons_of_neg _ (by simpa using hx)] at h
      exact ih h
    · rw [List.find?_cons_of_pos _ (by simpa using hx)] at h
      cases h
      rw [if_neg hx]

/-- The unique-customizations loop raises on the first customization
seen more than once. -/
theorem checkUnique_error {menuId : Nat} {seen : List Nat} :
    ∀ {l : List Customization} {c : Customization},
      l.find? (fun c => seen.count c.id > 1) = some c →
      checkUnique menuId seen l
        = .error (.invalidArgument (uniqueMsg menuId c.id)) := by
  intro l
  induction l with
  | nil => intro c h; cases h
  | cons x xs ih =>
    intro c h
    unfold checkUnique
    by_cases hx : seen.count x.id > 1
    · rw [List.find?_cons_of_pos _ (by simp [hx])] at h
      cases h
      rw [if_pos hx]
    · rw [if_neg hx]
      rw [List.find?_cons_of_neg _ (by simp [hx])] at h
      exact ih h

/-- An error on a later item propagates: if the items before it validate
and the item itself raises, the whole loop raises that error. -/
theorem validateItems_append_error {db : DB} {r : Restaurant}
    {it : OrderItemCreate} :
    ∀ (pre post : List OrderItemCreate) {q p : ℚ} {e : Err},
      validateItems db r pre q = .ok p →
      validateItem db r p it = .error e →
      validateItems db r (pre ++ it :: post) q = .error e := by
  intro pre
  induction pre with
  | nil =>
    intro post q p e hok herr
    cases hok
    rw [List.nil_append]
    simp only [validateItems, herr]
  | cons x xs ih =>
    intro post q p e hok herr
    rw [List.cons_append]
    simp only [validateItems] at hok ⊢
    cases hx : validateItem db r q x with
    | error e' => simp only [hx] at hok; cases hok
    | ok q1 =>
      simp only [hx] at hok ⊢
      exact ih post hok herr

/-- C6 (amended): when the restaurant resolves, all earlier items
validate, and the offending item passes its menu, restaurant-match,
quantity and per-option checks, a `required` customization of its menu
none of whose options were selected (its id is missing from the seen
list) makes `create_order` raise `InvalidArgumentError` naming the first
such customization's id, persisting nothing. -/
theorem create_order_missing_required (db : DB) (cid : Nat)
    (payload : OrderCreate) (now : Nat) (restaurant : Restaurant)
    (pre post : List OrderItemCreate) (it : OrderItemCreate)
    (p : ℚ) (menu : Menu) (acc : ℚ × List Nat) (c : Customization)
    (hr : get_restaurant db payload.restaurant_id = .ok restaurant)
    (hsplit : payload.items = pre ++ it :: post)
    (hpre : validateItems db restaurant pre 0 = .ok p)
    (hm : db.menus.find? (fun m => m.id == it.menu_id) = some menu)
    (hrest : ¬ menu.restaurant_id ≠ restaurant.id)
    (hq : ¬ it.quantity < 1)
    (hopts : it.options.foldlM (processOption db menu)
      (p + menu.price, []) = .ok acc)
    (hreq : (db.customizations.filter
        (fun c => c.menu_id == menu.id && c.required)).find?
        (fun c => !(acc.2.contains c.id)) = some c) :
    create_order db cid payload now
      = (db, .error (.invalidArgument (requiredMsg menu.id c.id))) := by
  have hitem : validateItem db restaurant p it
      = .error (.invalidArgument (requiredMsg menu.id c.id)) := by
    unfold validateItem
    simp only [hm]
    rw [if_neg hrest, if_neg hq]
    simp only [hopts]
    rw [checkRequired_error hreq]
  have hall := validateItems_append_error pre post hpre hitem
  unfold create_order
  rw [hsplit]
  simp only [hr, hall]

/-- Witness for C6 (amended) on the fixture: the single item selects only
an option of the unique customization 200, so the required customization
100 is missing. -/
theorem create_order_missing_required_witness :
    create_order db0 5 payloadMissingRequired 111
      = (db0, .error (.invalidArgument (requiredMsg 10 100))) :=
  create_order_missing_required db0 5 payloadMissingRequired 111
    { id := 1, merchant_id := 7 } [] []
    { menu_id := 10, quantity := 1, extra_requests := none,
      options := [{ option_id := 2000 }] }
    0 { id := 10, restaurant_id := 1, price := 8 }
    (0 + 8 + 3/4, [200])
    { id := 100, menu_id := 10, required := true, unique := false }
    rfl rfl rfl rfl (by simp) (by simp) rfl rfl

/-- C6 counterexample: `payloadBadOption`'s single item has menu 10 whose
`required` customization 100 has none of its options selected, yet
`create_order` raises `NotFoundError` for the nonexistent option 999 —
not an `InvalidArgumentError` naming 100 (nor any other). -/
theorem create_order_missing_required_cex :
    (create_order db0 5 payloadBadOption 111).2
      = .error (.notFound (optionNotFoundMsg 999)) ∧
    ∀ m : String, (create_order db0 5 payloadBadOption 111).2
      ≠ .error (.invalidArgument m) :=
  ⟨rfl, fun _ h =>
    Err.noConfusion (Except.error.inj
      ((show (create_order db0 5 payloadBadOption 111).2
          = .error (.notFound (optionNotFoundMsg 999)) from
            rfl).symm.trans h))⟩

/-- C7 (amended): when the restaurant resolves, all earlier items
validate, the offending item passes its menu, restaurant-match, quantity,
per-option and required checks, and a `unique` customization of its menu
was seen more than once, `create_order` raises `InvalidArgumentError`
naming the first such customization's id, persisting nothing. -/
theorem create_order_dup_unique (db : DB) (cid : Nat)
    (payload : OrderCreate) (now : Nat) (restaurant : Restaurant)
    (pre post : List OrderItemCreate) (it : OrderItemCreate)
    (p : ℚ) (menu : Menu) (acc : ℚ × List Nat) (c : Customization)
    (hr : get_restaurant db payload.restaurant_id = .ok restaurant)
    (hsplit : payload.items = pre ++ it :: post)
    (hpre : validateItems db restaurant pre 0 = .ok p)
    (hm : db.menus.find? (fun m => m.id == it.menu_id) = some menu)
    (hrest : ¬ menu.restaurant_id ≠ restaurant.id)
    (hq : ¬ it.quantity < 1)
    (hopts : it.options.foldlM (processOption db menu)
      (p + menu.price, []) = .ok acc)
    (hreqok : checkRequired menu.id acc.2
      (db.customizations.filter
        (fun c => c.menu_id == menu.id && c.required)) = .ok ())
    (hun : (db.customizations.filter
        (fun c => c.menu_id == menu.id && c.unique)).find?
        (fun c => acc.2.count c.id > 1) = some c) :
    create_order db cid payload now
      = (db, .error (.invalidArgument (uniqueMsg menu.id c.id))) := by
  have hitem : validateItem db restaurant p it
      = .error (.invalidArgument (uniqueMsg menu.id c.id)) := by
    unfold validateItem
    simp only [hm]
    rw [if_neg hrest, if_neg hq]
    simp only [hopts, hreqok]
    rw [checkUnique_error hun]
  have hall := validateItems_append_error pre post hpre hitem
  unfold create_order
  rw [hsplit]
  simp only [hr, hall]

/-- Witness for C7 (amended) on the fixture: the item selects the
required option 1000 and both options 2000 and 2001 of the unique
customization 200. -/
theorem create_order_dup_unique_witness :
    create_order db0 5 payloadDupUnique 111
      = (db0, .error (.invalidArgument (uniqueMsg 10 200))) :=
  create_order_dup_unique db0 5 payloadDupUnique 111
    { id := 1, merchant_id := 7 } [] []
    { menu_id := 10, quantity := 1, extra_requests := none,
      options := [{ option_id := 1000 }, { option_id := 2000 },
                  { option_id := 2001 }] }
    0 { id := 10, restaurant_id := 1, price := 8 }
    (0 + 8 + 3/2 + 3/4 + 0, [100, 200, 200])
    { id := 200, menu_id := 10, required := false, unique := true }
    rfl rfl rfl rfl (by simp) (by simp) rfl rfl rfl

/-- C7 counterexample: the item selects two options of the unique
customization 200 while omitting the required customization 100; the
required check fires first, so the error names 100, not 200. -/
theorem create_order_dup_unique_cex :
    (create_order db0 5 payloadDupUniqueMissingReq 111).2
      = .error (.invalidArgument (requiredMsg 10 100)) ∧
    (create_order db0 5 payloadDupUniqueMissingReq 111).2
      ≠ .error (.invalidArgument (uniqueMsg 10 200)) := by
  refine ⟨rfl, fun h => ?_⟩
  have h2 : requiredMsg 10 100 = uniqueMsg 10 200 :=
    Err.invalidArgument.inj (Except.error.inj
      ((show (create_order db0 5 payloadDupUniqueMissingReq 111).2
          = .error (.invalidArgument (requiredMsg 10 100)) from
            rfl).symm.trans h))
  exact absurd h2 (by decide)

/-! ## C9: the order of the validation checks -/

/-- An error on a prefix of the items propagates to the whole list:
items are checked in payload order. -/
theorem validateItems_prefix_error {db : DB} {r : Restaurant} :
    ∀ (pre post : List OrderItemCreate) {q : ℚ} {e : Err},
      validateItems db r pre q = .error e →
      validateItems db r (pre ++ post) q = .error e := by
  intro pre
  induction pre with
  | nil => intro post q e h; cases h
  | cons x xs ih =>
    intro post q e h
    rw [List.cons_append]
    simp only [validateItems] at h ⊢
    cases hx : validateItem db r q x with
    | error e' => simp only [hx] at h ⊢; exact h
    | ok q1 =>
      simp only [hx] at h ⊢
      exact ih post h

/-- C9 (amended): validation is deterministic and fails fast, items in
payload order; within an item the menu existence check runs first, then
the menu/restaurant match, then the quantity check, then the per-option
and required/unique checks — so an item with both a nonexistent menu id
and quantity < 1 reports the missing menu (`NotFoundError`), not the
quantity violation. -/
theorem validation_check_order (db : DB) (r : Restaurant)
    (pre post : List OrderItemCreate) (q : ℚ) (it : OrderItemCreate) :
    (∀ e : Err, validateItems db r pre q = .error e →
      validateItems db r (pre ++ post) q = .error e) ∧
    (db.menus.find? (fun m => m.id == it.menu_id) = none →
      validateItem db r q it = .error (.notFound menuNotFoundMsg)) ∧
    (∀ menu : Menu,
      db.menus.find? (fun m => m.id == it.menu_id) = some menu →
      menu.restaurant_id ≠ r.id →
      validateItem db r q it = .error
        (.invalidArgument (menuNotInRestaurantMsg it.menu_id r.id))) ∧
    (∀ menu : Menu,
      db.menus.find? (fun m => m.id == it.menu_id) = some menu →
      menu.restaurant_id = r.id → it.quantity < 1 →
      validateItem db r q it
        = .error (.invalidArgument (quantityMsg it.menu_id))) := by
  refine ⟨fun e h => validateItems_prefix_error pre post h, ?_, ?_, ?_⟩
  · intro hnone
    unfold validateItem
    simp only [hnone]
  · intro menu hm hne
    unfold validateItem
    simp only [hm]
    rw [if_pos hne]
  · intro menu hm heq hq
    unfold validateItem
    simp only [hm]
    rw [if_neg (fun hh => hh heq), if_pos hq]

/-- Witness for C9 (amended): menu 99 does not exist in the fixture, so
the item (menu 99, quantity 0) reports the missing menu; and for the
existing menu 10 a quantity of 0 reports the quantity violation. -/
theorem validation_check_order_witness :
    validateItem db0 { id := 1, merchant_id := 7 } 0
      { menu_id := 99, quantity := 0, extra_requests := none,
        options := [] }
      = .error (.notFound menuNotFoundMsg) ∧
    validateItem db0 { id := 1, merchant_id := 7 } 0
      { menu_id := 10, quantity := 0, extra_requests := none,
        options := [] }
      = .error (.invalidArgument (quantityMsg 10)) :=
  ⟨(validation_check_order db0 { id := 1, merchant_id := 7 } [] [] 0
      { menu_id := 99, quantity := 0, extra_requests := none,
        options := [] }).2.1 rfl,
   (validation_check_order db0 { id := 1, merchant_id := 7 } [] [] 0
      { menu_id := 10, quantity := 0, extra_requests := none,
        options := [] }).2.2.2
      { id := 10, restaurant_id := 1, price := 8 } rfl rfl (by decide)⟩

/-- C9 counterexample: for an item with both a nonexistent menu id (99)
and quantity 0, `create_order` reports `NotFoundError` for the menu —
not, as claimed, the quantity `InvalidArgumentError`. -/
theorem validation_check_order_cex :
    (create_order db0 5 payloadBadMenuQty 111).2
      = .error (.notFound menuNotFoundMsg) ∧
    (create_order db0 5 payloadBadMenuQty 111).2
      ≠ .error (.invalidArgument (quantityMsg 99)) :=
  ⟨rfl, fun h =>
    Err.noConfusion (Except.error.inj
      ((show (create_order db0 5 payloadBadMenuQty 111).2
          = .error (.notFound menuNotFoundMsg) from rfl).symm.trans h))⟩

/-! ## C10: price is independent of quantities -/

/-- Item validation does not depend on the quantity beyond the `< 1`
check: two items equal except for their quantities, both at least 1,
validate identically. -/
theorem validateItem_quantity_blind {db : DB} {r : Restaurant} {q : ℚ}
    {a b : OrderItemCreate}
    (hmenu : a.menu_id = b.menu_id) (hopts : a.options = b.options)
    (hqa : 1 ≤ a.quantity) (hqb : 1 ≤ b.quantity) :
    validateItem db r q a = validateItem db r q b := by
  unfold validateItem
  rw [hmenu, hopts]
  split
  · rfl
  · rename_i menu heq
    by_cases hne : menu.restaurant_id ≠ r.id
    · rw [if_pos hne, if_pos hne]
    · rw [if_neg hne, if_neg hne,
        if_neg (show ¬ a.quantity < 1 by omega),
        if_neg (show ¬ b.quantity < 1 by omega)]

/-- The whole item loop is quantity-blind, itemwise. -/
theorem validateItems_quantity_blind {db : DB} {r : Restaurant} :
    ∀ {l1 l2 : List OrderItemCreate},
      List.Forall₂ (fun a b => a.menu_id = b.menu_id ∧
        a.extra_requests = b.extra_requests ∧ a.options = b.options ∧
        1 ≤ a.quantity ∧ 1 ≤ b.quantity) l1 l2 →
      ∀ q : ℚ, validateItems db r l1 q = validateItems db r l2 q := by
  intro l1 l2 h
  induction h with
  | nil => intro q; rfl
  | cons hab hrest ih =>
    intro q
    simp only [validateItems]
    rw [validateItem_quantity_blind hab.1 hab.2.2.1 hab.2.2.2.1
      hab.2.2.2.2]
    cases hv : validateItem db r q _ with
    | error e => rfl
    | ok q1 => exact ih q1

/-- C10: `price_paid` is independent of the line items' quantities: two
payloads identical except for their quantity fields (all at least 1)
produce the same result code and the same `Order` rows — in particular
the same `price_paid`, each item contributing its base price and option
extras exactly once. -/
theorem create_order_quantity_blind (db : DB) (cid : Nat)
    (p1 p2 : OrderCreate) (now : Nat)
    (hr : p2.restaurant_id = p1.restaurant_id)
    (hitems : List.Forall₂ (fun a b => a.menu_id = b.menu_id ∧
      a.extra_requests = b.extra_requests ∧ a.options = b.options ∧
      1 ≤ a.quantity ∧ 1 ≤ b.quantity) p1.items p2.items) :
    (create_order db cid p1 now).2 = (create_order db cid p2 now).2 ∧
    (create_order db cid p1 now).1.orders
      = (create_order db cid p2 now).1.orders := by
  unfold create_order
  rw [hr]
  cases hg : get_restaurant db p1.restaurant_id with
  | error e => exact ⟨rfl, rfl⟩
  | ok r =>
    simp only [hg]
    rw [validateItems_quantity_blind hitems 0]
    cases hv : validateItems db r p2.items 0 with
    | error e => exact ⟨rfl, rfl⟩
    | ok price =>
      simp only [hv]
      constructor
      · trivial
      · rw [(writeItem_foldl_proj _ p1.items _).2.2.2.2.1,
          (writeItem_foldl_proj _ p2.items _).2.2.2.2.1]

/-- Witness for C10: the fixture payloads with quantities 2 and 5 give
the same result and the same order rows. -/
theorem create_order_quantity_blind_witness :
    (create_order db0 5 payloadOK 111).2
      = (create_order db0 5 payloadQty5 111).2 ∧
    (create_order db0 5 payloadOK 111).1.orders
      = (create_order db0 5 payloadQty5 111).1.orders :=
  create_order_quantity_blind db0 5 payloadOK payloadQty5 111 rfl
    (.cons ⟨rfl, rfl, rfl, by decide, by decide⟩ .nil)

/-! ## C8: the projection returns the just-written satellite -/

/-- An order found by id in the orders table after `setStatus` carries
the new status. -/
theorem setStatus_mem_id {db : DB} {oid : Nat} {flag : OrderStatusFlag}
    {o : Order} (h : o ∈ (setStatus db oid flag).orders)
    (hid : o.id = oid) : o.status = flag := by
  unfold setStatus at h
  simp only [List.mem_map] at h
  obtain ⟨o₀, ho₀, heq⟩ := h
  by_cases h0 : (o₀.id == oid) = true
  · rw [if_pos h0] at heq
    rw [← heq]
  · rw [if_neg h0] at heq
    rw [← heq] at hid
    simp [hid] at h0

/-- Appending one matching element behind a list with no match makes it
the search result. -/
theorem find?_append_singleton {α : Type} {l : List α} {p : α → Bool}
    {a : α} (h : l.find? p = none) (ha : p a = true) :
    (l ++ [a]).find? p = some a := by
  rw [find?_append_of_none h, List.find?_cons_of_pos _ ha]

/-- Projection after a cancellation write: the appended `CancelledOrder`
row is returned field by field. -/
theorem getStatus_after_cancel (db : DB) (oid : Nat)
    (row : CancelledOrder) (order2 : Order)
    (hfresh : db.cancelled_orders.find? (fun c => c.order_id == oid)
      = none)
    (hrow : row.order_id = oid)
    (hfind2 : (setStatus
        { db with cancelled_orders := db.cancelled_orders ++ [row] }
        oid .CANCELLED).orders.find? (fun o => o.id == oid)
      = some order2) :
    getStatusNoValidation
        (setStatus
          { db with cancelled_orders := db.cancelled_orders ++ [row] }
          oid .CANCELLED) order2
      = .ok (.cancelled row.cancelled_by row.cancelled_time row.reason)
      := by
  have hmem := List.mem_of_find?_eq_some hfind2
  have hid : order2.id = oid := by simpa using List.find?_some hfind2
  have hst : order2.status = .CANCELLED := setStatus_mem_id hmem hid
  unfold getStatusNoValidation
  simp only [hst, hid]
  rw [show (setStatus
      { db with cancelled_orders := db.cancelled_orders ++ [row] }
      oid .CANCELLED).cancelled_orders
    = db.cancelled_orders ++ [row] from rfl]
  rw [find?_append_singleton hfresh (by simp [hrow])]

/-- Projection after a preparing write. -/
theorem getStatus_after_preparing (db : DB) (oid : Nat)
    (row : PreparingOrder) (order2 : Order)
    (hfresh : db.preparing_orders.find? (fun p => p.order_id == oid)
      = none)
    (hrow : row.order_id = oid)
    (hfind2 : (setStatus
        { db with preparing_orders := db.preparing_orders ++ [row] }
        oid .PREPARING).orders.find? (fun o => o.id == oid)
      = some order2) :
    getStatusNoValidation
        (setStatus
          { db with preparing_orders := db.preparing_orders ++ [row] }
          oid .PREPARING) order2
      = .ok (.preparing row.prepared_at) := by
  have hmem := List.mem_of_find?_eq_some hfind2
  have hid : order2.id = oid := by simpa using List.find?_some hfind2
  have hst : order2.status = .PREPARING := setStatus_mem_id hmem hid
  unfold getStatusNoValidation
  simp only [hst, hid]
  rw [show (setStatus
      { db with preparing_orders := db.preparing_orders ++ [row] }
      oid .PREPARING).preparing_orders
    = db.preparing_orders ++ [row] from rfl]
  rw [find?_append_singleton hfresh (by simp [hrow])]

/-- Projection after a ready write. -/
theorem getStatus_after_ready (db : DB) (oid : Nat)
    (row : ReadyOrder) (order2 : Order)
    (hfresh : db.ready_orders.find? (fun r => r.order_id == oid) = none)
    (hrow : row.order_id = oid)
    (hfind2 : (setStatus
        { db with ready_orders := db.ready_orders ++ [row] }
        oid .READY).orders.find? (fun o => o.id == oid) = some order2) :
    getStatusNoValidation
        (setStatus { db with ready_orders := db.ready_orders ++ [row] }
          oid .READY) order2
      = .ok (.ready row.ready_at) := by
  have hmem := List.mem_of_find?_eq_some hfind2
  have hid : order2.id = oid := by simpa using List.find?_some hfind2
  have hst : order2.status = .READY := setStatus_mem_id hmem hid
  unfold getStatusNoValidation
  simp only [hst, hid]
  rw [show (setStatus
      { db with ready_orders := db.ready_orders ++ [row] }
      oid .READY).ready_orders = db.ready_orders ++ [row] from rfl]
  rw [find?_append_singleton hfresh (by simp [hrow])]

/-- Projection after a settled write. -/
theorem getStatus_after_settled (db : DB) (oid : Nat)
    (row : SettledOrder) (order2 : Order)
    (hfresh : db.settled_orders.find? (fun s => s.order_id == oid)
      = none)
    (hrow : row.order_id = oid)
    (hfind2 : (setStatus
        { db with settled_orders := db.settled_orders ++ [row] }
        oid .SETTLED).orders.find? (fun o => o.id == oid)
      = some order2) :
    getStatusNoValidation
        (setStatus
          { db with settled_orders := db.settled_orders ++ [row] }
          oid .SETTLED) order2
      = .ok (.settled row.settled_at) := by
  have hmem := List.mem_of_find?_eq_some hfind2
  have hid : order2.id = oid := by simpa using List.find?_some hfind2
  have hst : order2.status = .SETTLED := setStatus_mem_id hmem hid
  unfold getStatusNoValidation
  simp only [hst, hid]
  rw [show (setStatus
      { db with settled_orders := db.settled_orders ++ [row] }
      oid .SETTLED).settled_orders = db.settled_orders ++ [row] from rfl]
  rw [find?_append_singleton hfresh (by simp [hrow])]

/-- After a successful transition whose written satellite kind had no
pre-existing row for this order, `get_order_status` by any authorized
actor returns the status payload of the just-written satellite row.
The freshness hypothesis is discharged on reachable states below. -/
theorem getStatus_after_update_fresh (db : DB) (u : Nat) (role : Role)
    (oid : Nat) (upd : OrderStatusUpdate) (now : Nat) (u2 : Nat)
    (role2 : Role) (order2 : Order)
    (hok : (update_order_status db u role oid upd now).2 = .ok ())
    (hfresh : noPriorSat db oid upd)
    (hauth : getOrderWithValidation
      (update_order_status db u role oid upd now).1 u2 role2 oid
      = .ok order2) :
    get_order_status (update_order_status db u role oid upd now).1 u2
      role2 oid = .ok (writtenStatus role upd now) := by
  unfold get_order_status
  simp only [hauth]
  have hfind2 := getOrderWithValidation_ok hauth
  unfold update_order_status at hok hfind2 ⊢
  cases hg : getOrderWithValidation db u role oid with
  | error e => simp only [hg] at hok; cases hok
  | ok order =>
    have hfind1 := getOrderWithValidation_ok hg
    have hid1 : order.id = oid := by simpa using List.find?_some hfind1
    simp only [hg] at hok hfind2 ⊢
    cases role <;> cases upd <;> cases ho : order.status <;>
      simp only [ho] at hok hfind2 ⊢ <;> cases hok <;>
      rw [hid1] at hfind2 ⊢ <;>
      first
      | exact getStatus_after_cancel db oid _ order2 hfresh rfl hfind2
      | exact getStatus_after_preparing db oid _ order2 hfresh rfl hfind2
      | exact getStatus_after_ready db oid _ order2 hfresh rfl hfind2
      | exact getStatus_after_settled db oid _ order2 hfresh rfl hfind2

/-! ## C5: status/satellite consistency on reachable states -/

/-- `setStatus` does not touch the satellite tables. -/
theorem countCancelled_setStatus (db : DB) (i : Nat)
    (fl : OrderStatusFlag) (oid : Nat) :
    countCancelled (setStatus db i fl) oid = countCancelled db oid := rfl

theorem countPreparing_setStatus (db : DB) (i : Nat)
    (fl : OrderStatusFlag) (oid : Nat) :
    countPreparing (setStatus db i fl) oid = countPreparing db oid := rfl

theorem countReady_setStatus (db : DB) (i : Nat) (fl : OrderStatusFlag)
    (oid : Nat) :
    countReady (setStatus db i fl) oid = countReady db oid := rfl

theorem countSettled_setStatus (db : DB) (i : Nat) (fl : OrderStatusFlag)
    (oid : Nat) :
    countSettled (setStatus db i fl) oid = countSettled db oid := rfl

/-- Appending a satellite row bumps its own table's count at its order id
and nothing else. -/
theorem countCancelled_append (db : DB) (row : CancelledOrder)
    (oid : Nat) :
    countCancelled
        { db with cancelled_orders := db.cancelled_orders ++ [row] } oid
      = countCancelled db oid + (if row.order_id == oid then 1 else 0)
      := by
  unfold countCancelled
  simp only [List.filter_append]
  by_cases h : (row.order_id == oid) = true <;>
    simp [List.filter, h]

theorem countPreparing_append (db : DB) (row : PreparingOrder)
    (oid : Nat) :
    countPreparing
        { db with preparing_orders := db.preparing_orders ++ [row] } oid
      = countPreparing db oid + (if row.order_id == oid then 1 else 0)
      := by
  unfold countPreparing
  simp only [List.filter_append]
  by_cases h : (row.order_id == oid) = true <;>
    simp [List.filter, h]

theorem countReady_append (db : DB) (row : ReadyOrder) (oid : Nat) :
    countReady { db with ready_orders := db.ready_orders ++ [row] } oid
      = countReady db oid + (if row.order_id == oid then 1 else 0) := by
  unfold countReady
  simp only [List.filter_append]
  by_cases h : (row.order_id == oid) = true <;>
    simp [List.filter, h]

theorem countSettled_append (db : DB) (row : SettledOrder) (oid : Nat) :
    countSettled
        { db with settled_orders := db.settled_orders ++ [row] } oid
      = countSettled db oid + (if row.order_id == oid then 1 else 0)
      := by
  unfold countSettled
  simp only [List.filter_append]
  by_cases h : (row.order_id == oid) = true <;>
    simp [List.filter, h]

/-- `StrongInv` only looks at the orders table and the four satellite
tables. -/
theorem StrongInv_congr {dbOld dbNew : DB}
    (ho : dbNew.orders = dbOld.orders)
    (hc : dbNew.cancelled_orders = dbOld.cancelled_orders)
    (hp : dbNew.preparing_orders = dbOld.preparing_orders)
    (hrd : dbNew.ready_orders = dbOld.ready_orders)
    (hs : dbNew.settled_orders = dbOld.settled_orders)
    (h : StrongInv dbOld) : StrongInv dbNew := by
  unfold StrongInv SatOwned SatCounts countCancelled countPreparing
    countReady countSettled at h ⊢
  rw [ho, hc, hp, hrd, hs]
  exact h

/-- No satellite row carries a fresh order id. -/
theorem counts_at_fresh {db : DB} (h : StrongInv db) :
    countCancelled db (nextOrderId db) = 0 ∧
    countPreparing db (nextOrderId db) = 0 ∧
    countReady db (nextOrderId db) = 0 ∧
    countSettled db (nextOrderId db) = 0 := by
  obtain ⟨-, ⟨hc, hp, hrd, hs⟩, -⟩ := h
  refine ⟨?_, ?_, ?_, ?_⟩ <;>
    [unfold countCancelled; unfold countPreparing; unfold countReady;
      unfold countSettled] <;>
    rw [List.length_eq_zero, List.filter_eq_nil_iff]
  · intro row hrow hbeq
    obtain ⟨o, ho, hoid⟩ := hc row hrow
    exact nextOrderId_fresh ho (hoid.trans (by simpa using hbeq))
  · intro row hrow hbeq
    obtain ⟨o, ho, hoid⟩ := hp row hrow
    exact nextOrderId_fresh ho (hoid.trans (by simpa using hbeq))
  · intro row hrow hbeq
    obtain ⟨o, ho, hoid⟩ := hrd row hrow
    exact nextOrderId_fresh ho (hoid.trans (by simpa using hbeq))
  · intro row hrow hbeq
    obtain ⟨o, ho, hoid⟩ := hs row hrow
    exact nextOrderId_fresh ho (hoid.trans (by simpa using hbeq))

/-- `create_order` preserves the invariant. -/
theorem create_preserves_inv {db : DB} (h : StrongInv db) (cid : Nat)
    (p : OrderCreate) (now : Nat) :
    StrongInv (create_order db cid p now).1 := by
  unfold create_order
  cases hr : get_restaurant db p.restaurant_id with
  | error e => exact h
  | ok r =>
    simp only [hr]
    cases hv : validateItems db r p.items 0 with
    | error e => exact h
    | ok price =>
      simp only [hv]
      have hproj := writeItem_foldl_proj (nextOrderId db) p.items
        { db with orders := db.orders ++
          [{ id := nextOrderId db, customer_id := cid,
             restaurant_id := r.id, ordered_at := now,
             price_paid := price, status := .ORDERED }] }
      refine StrongInv_congr hproj.2.2.2.2.1 hproj.2.2.2.2.2.1
        hproj.2.2.2.2.2.2.1 hproj.2.2.2.2.2.2.2.1
        hproj.2.2.2.2.2.2.2.2 ?_
      obtain ⟨hpw, hown, hcnt⟩ := h
      obtain ⟨hfc, hfp, hfr, hfs⟩ := counts_at_fresh ⟨hpw, hown, hcnt⟩
      refine ⟨?_, ?_, ?_⟩
      · rw [show ({ db with orders := db.orders ++
            [{ id := nextOrderId db, customer_id := cid,
               restaurant_id := r.id, ordered_at := now,
               price_paid := price, status := .ORDERED }] } :
            DB).orders = db.orders ++ [_] from rfl,
          List.pairwise_append]
        refine ⟨hpw, List.pairwise_singleton _ _, ?_⟩
        intro a ha b hb
        rw [List.mem_singleton] at hb
        subst hb
        exact nextOrderId_fresh ha
      · refine ⟨?_, ?_, ?_, ?_⟩ <;> intro row hrow
        · obtain ⟨o, ho, hoid⟩ := hown.1 row hrow
          exact ⟨o, List.mem_append_left _ ho, hoid⟩
        · obtain ⟨o, ho, hoid⟩ := hown.2.1 row hrow
          exact ⟨o, List.mem_append_left _ ho, hoid⟩
        · obtain ⟨o, ho, hoid⟩ := hown.2.2.1 row hrow
          exact ⟨o, List.mem_append_left _ ho, hoid⟩
        · obtain ⟨o, ho, hoid⟩ := hown.2.2.2 row hrow
          exact ⟨o, List.mem_append_left _ ho, hoid⟩
      · intro o ho
        rw [show ({ db with orders := db.orders ++
            [{ id := nextOrderId db, customer_id := cid,
               restaurant_id := r.id, ordered_at := now,
               price_paid := price, status := .ORDERED }] } :
            DB).orders = db.orders ++ [_] from rfl,
          List.mem_append] at ho
        rcases ho with ho | ho
        · exact hcnt o ho
        · rw [List.mem_singleton] at ho
          subst ho
          exact ⟨hfc, hfp, hfr, hfs⟩

/-- The orders table after `setStatus`, explicitly. -/
theorem setStatus_orders (db : DB) (i : Nat) (fl : OrderStatusFlag) :
    (setStatus db i fl).orders = db.orders.map
      (fun o => if o.id == i then { o with status := fl } else o) := rfl

/-- The status updater preserves ids. -/
theorem updF_id (i : Nat) (fl : OrderStatusFlag) (o : Order) :
    ((if o.id == i then { o with status := fl } else o) : Order).id
      = o.id := by
  by_cases h : (o.id == i) = true <;> simp [h]

/-- Distinctness of ids survives a status update. -/
theorem pairwise_setStatus {l : List Order} (i : Nat)
    (fl : OrderStatusFlag)
    (hp : l.Pairwise (fun a b => a.id ≠ b.id)) :
    (l.map (fun o => if o.id == i then { o with status := fl } else o)
      ).Pairwise (fun a b => a.id ≠ b.id) := by
  rw [List.pairwise_map]
  exact hp.imp (fun hab => by rw [updF_id, updF_id]; exact hab)

/-- Satellite ownership survives a status update of the orders table. -/
theorem exists_mem_map_id {l : List Order} {i : Nat}
    {fl : OrderStatusFlag} {oid : Nat} (h : ∃ o ∈ l, o.id = oid) :
    ∃ o ∈ l.map
      (fun o => if o.id == i then { o with status := fl } else o),
      o.id = oid := by
  obtain ⟨o, ho, hid⟩ := h
  refine ⟨_, List.mem_map_of_mem _ ho, ?_⟩
  rw [updF_id]
  exact hid

/-- `SatCounts` transports along equal counts. -/
theorem satCounts_congr {dbOld dbNew : DB} {o : Order}
    (hc : countCancelled dbNew o.id = countCancelled dbOld o.id)
    (hp : countPreparing dbNew o.id = countPreparing dbOld o.id)
    (hrd : countReady dbNew o.id = countReady dbOld o.id)
    (hs : countSettled dbNew o.id = countSettled dbOld o.id)
    (h : SatCounts dbOld o) : SatCounts dbNew o := by
  unfold SatCounts at h ⊢
  cases hst : o.status <;> simp only [hst] at h ⊢ <;>
    simp only [hc, hp, hrd, hs] <;> exact h

/-- Cancellation step (from ORDERED or PREPARING, either role) preserves
the invariant. -/
theorem inv_step_cancel {db : DB} {order : Order} (h : StrongInv db)
    (hmem : order ∈ db.orders)
    (hst : order.status = .ORDERED ∨ order.status = .PREPARING)
    (t : Nat) (who : OrderCancelledBy) (reason : String) :
    StrongInv (setStatus
      { db with cancelled_orders := db.cancelled_orders ++
          [{ order_id := order.id, cancelled_time := t,
             cancelled_by := who, reason := reason }] }
      order.id .CANCELLED) := by
  obtain ⟨hpw, hown, hcnt⟩ := h
  have hc0 : countCancelled db order.id = 0 := by
    have hco := hcnt order hmem
    unfold SatCounts at hco
    rcases hst with h1 | h1 <;> rw [h1] at hco
    · exact hco.1
    · exact hco.2.2.2
  refine ⟨?_, ⟨?_, ?_, ?_, ?_⟩, ?_⟩
  · rw [setStatus_orders]
    exact pairwise_setStatus _ _ hpw
  · intro row hrow
    rw [show (setStatus
        { db with cancelled_orders := db.cancelled_orders ++
            [{ order_id := order.id, cancelled_time := t,
               cancelled_by := who, reason := reason }] }
        order.id .CANCELLED).cancelled_orders
      = db.cancelled_orders ++
          [{ order_id := order.id, cancelled_time := t,
             cancelled_by := who, reason := reason }] from rfl,
      List.mem_append] at hrow
    rcases hrow with hrow | hrow
    · exact exists_mem_map_id (hown.1 row hrow)
    · rw [List.mem_singleton] at hrow
      subst hrow
      exact exists_mem_map_id ⟨order, hmem, rfl⟩
  · intro row hrow
    exact exists_mem_map_id (hown.2.1 row hrow)
  · intro row hrow
    exact exists_mem_map_id (hown.2.2.1 row hrow)
  · intro row hrow
    exact exists_mem_map_id (hown.2.2.2 row hrow)
  · intro o' ho'
    rw [setStatus_orders] at ho'
    obtain ⟨o, ho, rfl⟩ := List.mem_map.mp ho'
    by_cases hoid : (o.id == order.id) = true
    · have heq : o = order :=
        order_eq_of_id_eq hpw ho hmem (by simpa using hoid)
      subst heq
      rw [if_pos hoid]
      show countCancelled _ o.id = 1
      rw [countCancelled_setStatus, countCancelled_append, hc0]
      simp
    · rw [if_neg hoid]
      have hne : ¬ order.id = o.id := fun hh => by
        simp [hh] at hoid
      refine @satCounts_congr db _ o ?_ rfl rfl rfl (hcnt o ho)
      rw [countCancelled_setStatus, countCancelled_append]
      simp [hne]

/-- Preparing step (merchant, from ORDERED) preserves the invariant. -/
theorem inv_step_preparing {db : DB} {order : Order} (h : StrongInv db)
    (hmem : order ∈ db.orders) (hst : order.status = .ORDERED)
    (t : Nat) :
    StrongInv (setStatus
      { db with preparing_orders := db.preparing_orders ++
          [{ order_id := order.id, prepared_at := t }] }
      order.id .PREPARING) := by
  obtain ⟨hpw, hown, hcnt⟩ := h
  have hco := hcnt order hmem
  unfold SatCounts at hco
  rw [hst] at hco
  obtain ⟨hc0, hp0, hr0, hs0⟩ := hco
  refine ⟨?_, ⟨?_, ?_, ?_, ?_⟩, ?_⟩
  · rw [setStatus_orders]
    exact pairwise_setStatus _ _ hpw
  · intro row hrow
    exact exists_mem_map_id (hown.1 row hrow)
  · intro row hrow
    rw [show (setStatus
        { db with preparing_orders := db.preparing_orders ++
            [{ order_id := order.id, prepared_at := t }] }
        order.id .PREPARING).preparing_orders
      = db.preparing_orders ++
          [{ order_id := order.id, prepared_at := t }] from rfl,
      List.mem_append] at hrow
    rcases hrow with hrow | hrow
    · exact exists_mem_map_id (hown.2.1 row hrow)
    · rw [List.mem_singleton] at hrow
      subst hrow
      exact exists_mem_map_id ⟨order, hmem, rfl⟩
  · intro row hrow
    exact exists_mem_map_id (hown.2.2.1 row hrow)
  · intro row hrow
    exact exists_mem_map_id (hown.2.2.2 row hrow)
  · intro o' ho'
    rw [setStatus_orders] at ho'
    obtain ⟨o, ho, rfl⟩ := List.mem_map.mp ho'
    by_cases hoid : (o.id == order.id) = true
    · have heq : o = order :=
        order_eq_of_id_eq hpw ho hmem (by simpa using hoid)
      subst heq
      rw [if_pos hoid]
      refine ⟨?_, hr0, hs0, hc0⟩
      show countPreparing _ o.id = 1
      rw [countPreparing_setStatus, countPreparing_append, hp0]
      simp
    · rw [if_neg hoid]
      have hne : ¬ order.id = o.id := fun hh => by
        simp [hh] at hoid
      refine @satCounts_congr db _ o rfl ?_ rfl rfl (hcnt o ho)
      rw [countPreparing_setStatus, countPreparing_append]
      simp [hne]

/-- Ready step (merchant, from PREPARING) preserves the invariant. -/
theorem inv_step_ready {db : DB} {order : Order} (h : StrongInv db)
    (hmem : order ∈ db.orders) (hst : order.status = .PREPARING)
    (t : Nat) :
    StrongInv (setStatus
      { db with ready_orders := db.ready_orders ++
          [{ order_id := order.id, ready_at := t }] }
      order.id .READY) := by
  obtain ⟨hpw, hown, hcnt⟩ := h
  have hco := hcnt order hmem
  unfold SatCounts at hco
  rw [hst] at hco
  obtain ⟨hp1, hr0, hs0, hc0⟩ := hco
  refine ⟨?_, ⟨?_, ?_, ?_, ?_⟩, ?_⟩
  · rw [setStatus_orders]
    exact pairwise_setStatus _ _ hpw
  · intro row hrow
    exact exists_mem_map_id (hown.1 row hrow)
  · intro row hrow
    exact exists_mem_map_id (hown.2.1 row hrow)
  · intro row hrow
    rw [show (setStatus
        { db with ready_orders := db.ready_orders ++
            [{ order_id := order.id, ready_at := t }] }
        order.id .READY).ready_orders
      = db.ready_orders ++ [{ order_id := order.id, ready_at := t }]
      from rfl, List.mem_append] at hrow
    rcases hrow with hrow | hrow
    · exact exists_mem_map_id (hown.2.2.1 row hrow)
    · rw [List.mem_singleton] at hrow
      subst hrow
      exact exists_mem_map_id ⟨order, hmem, rfl⟩
  · intro row hrow
    exact exists_mem_map_id (hown.2.2.2 row hrow)
  · intro o' ho'
    rw [setStatus_orders] at ho'
    obtain ⟨o, ho, rfl⟩ := List.mem_map.mp ho'
    by_cases hoid : (o.id == order.id) = true
    · have heq : o = order :=
        order_eq_of_id_eq hpw ho hmem (by simpa using hoid)
      subst heq
      rw [if_pos hoid]
      refine ⟨?_, hs0, hc0⟩
      show countReady _ o.id = 1
      rw [countReady_setStatus, countReady_append, hr0]
      simp
    · rw [if_neg hoid]
      have hne : ¬ order.id = o.id := fun hh => by
        simp [hh] at hoid
      refine @satCounts_congr db _ o rfl rfl ?_ rfl (hcnt o ho)
      rw [countReady_setStatus, countReady_append]
      simp [hne]

/-- Settle step (customer, from READY) preserves the invariant. -/
theorem inv_step_settled {db : DB} {order : Order} (h : StrongInv db)
    (hmem : order ∈ db.orders) (hst : order.status = .READY) (t : Nat) :
    StrongInv (setStatus
      { db with settled_orders := db.settled_orders ++
          [{ order_id := order.id, settled_at := t }] }
      order.id .SETTLED) := by
  obtain ⟨hpw, hown, hcnt⟩ := h
  have hco := hcnt order hmem
  unfold SatCounts at hco
  rw [hst] at hco
  obtain ⟨hr1, hs0, hc0⟩ := hco
  refine ⟨?_, ⟨?_, ?_, ?_, ?_⟩, ?_⟩
  · rw [setStatus_orders]
    exact pairwise_setStatus _ _ hpw
  · intro row hrow
    exact exists_mem_map_id (hown.1 row hrow)
  · intro row hrow
    exact exists_mem_map_id (hown.2.1 row hrow)
  · intro row hrow
    exact exists_mem_map_id (hown.2.2.1 row hrow)
  · intro row hrow
    rw [show (setStatus
        { db with settled_orders := db.settled_orders ++
            [{ order_id := order.id, settled_at := t }] }
        order.id .SETTLED).settled_orders
      = db.settled_orders ++ [{ order_id := order.id, settled_at := t }]
      from rfl, List.mem_append] at hrow
    rcases hrow with hrow | hrow
    · exact exists_mem_map_id (hown.2.2.2 row hrow)
    · rw [List.mem_singleton] at hrow
      subst hrow
      exact exists_mem_map_id ⟨order, hmem, rfl⟩
  · intro o' ho'
    rw [setStatus_orders] at ho'
    obtain ⟨o, ho, rfl⟩ := List.mem_map.mp ho'
    by_cases hoid : (o.id == order.id) = true
    · have heq : o = order :=
        order_eq_of_id_eq hpw ho hmem (by simpa using hoid)
      subst heq
      rw [if_pos hoid]
      show countSettled _ o.id = 1
      rw [countSettled_setStatus, countSettled_append, hs0]
      simp
    · rw [if_neg hoid]
      have hne : ¬ order.id = o.id := fun hh => by
        simp [hh] at hoid
      refine @satCounts_congr db _ o rfl rfl rfl ?_ (hcnt o ho)
      rw [countSettled_setStatus, countSettled_append]
      simp [hne]

/-- `update_order_status` preserves the invariant. -/
theorem update_preserves_inv {db : DB} (h : StrongInv db) (u : Nat)
    (role : Role) (oid : Nat) (upd : OrderStatusUpdate) (now : Nat) :
    StrongInv (update_order_status db u role oid upd now).1 := by
  unfold update_order_status
  cases hg : getOrderWithValidation db u role oid with
  | error e => exact h
  | ok order =>
    have hfind := getOrderWithValidation_ok hg
    have hmem : order ∈ db.orders := List.mem_of_find?_eq_some hfind
    simp only [hg]
    cases role <;> cases upd <;> cases ho : order.status <;>
      simp only [ho] <;>
      first
      | exact h
      | exact inv_step_cancel ⟨h.1, h.2.1, h.2.2⟩ hmem (.inl ho) now _ _
      | exact inv_step_cancel ⟨h.1, h.2.1, h.2.2⟩ hmem (.inr ho) now _ _
      | exact inv_step_preparing ⟨h.1, h.2.1, h.2.2⟩ hmem ho now
      | exact inv_step_ready ⟨h.1, h.2.1, h.2.2⟩ hmem ho now
      | exact inv_step_settled ⟨h.1, h.2.1, h.2.2⟩ hmem ho now

/-- Every reachable state satisfies the inductive invariant. -/
theorem reachable_inv {db : DB} (h : Reachable db) : StrongInv db := by
  induction h with
  | init db h1 h2 h3 h4 h5 =>
    refine ⟨?_, ⟨?_, ?_, ?_, ?_⟩, ?_⟩
    · rw [h1]; exact List.Pairwise.nil
    · intro row hrow; rw [h2] at hrow; cases hrow
    · intro row hrow; rw [h3] at hrow; cases hrow
    · intro row hrow; rw [h4] at hrow; cases hrow
    · intro row hrow; rw [h5] at hrow; cases hrow
    · intro o ho; rw [h1] at ho; cases ho
  | create db cid p now hr ih => exact create_preserves_inv ih cid p now
  | update db u role oid upd now hr ih =>
    exact update_preserves_inv ih u role oid upd now

/-- A filtered list of length one yields a search hit. -/
theorem find?_of_filter_length_one {α : Type} {l : List α}
    {p : α → Bool} (h : (l.filter p).length = 1) :
    ∃ a, l.find? p = some a := by
  cases hf : l.find? p with
  | some a => exact ⟨a, rfl⟩
  | none =>
    rw [List.find?_eq_none] at hf
    rw [show l.filter p = [] from List.filter_eq_nil_iff.mpr hf] at h
    cases h

/-- C5: on every state reachable via `create_order` and
`update_order_status` from a state with no orders, every order's status
and satellite records are mutually consistent — an ORDERED order has no
satellite record of any kind, and an order in any other status has
exactly one satellite record of the kind matching that status — and the
status projection never raises `InternalServerError`. -/
theorem reachable_consistency (db : DB) (h : Reachable db) :
    ∀ o ∈ db.orders,
      (o.status = .ORDERED →
        countCancelled db o.id = 0 ∧ countPreparing db o.id = 0 ∧
        countReady db o.id = 0 ∧ countSettled db o.id = 0) ∧
      (o.status ≠ .ORDERED → matchingSatCount db o = 1) ∧
      (∃ s, getStatusNoValidation db o = .ok s) := by
  intro o ho
  have hcnt := (reachable_inv h).2.2 o ho
  unfold SatCounts at hcnt
  unfold matchingSatCount
  cases hst : o.status <;> rw [hst] at hcnt
  · exact ⟨fun _ => hcnt, fun hne => absurd rfl hne,
      ⟨.ordered, by unfold getStatusNoValidation; rw [hst]⟩⟩
  · refine ⟨fun hc => OrderStatusFlag.noConfusion hc,
      fun _ => hcnt.1, ?_⟩
    obtain ⟨row, hrow⟩ := find?_of_filter_length_one hcnt.1
    exact ⟨.preparing row.prepared_at, by
      unfold getStatusNoValidation
      simp only [hst]
      rw [hrow]⟩
  · refine ⟨fun hc => OrderStatusFlag.noConfusion hc,
      fun _ => hcnt.1, ?_⟩
    obtain ⟨row, hrow⟩ := find?_of_filter_length_one hcnt.1
    exact ⟨.ready row.ready_at, by
      unfold getStatusNoValidation
      simp only [hst]
      rw [hrow]⟩
  · refine ⟨fun hc => OrderStatusFlag.noConfusion hc,
      fun _ => hcnt, ?_⟩
    obtain ⟨row, hrow⟩ := find?_of_filter_length_one hcnt
    exact ⟨.settled row.settled_at, by
      unfold getStatusNoValidation
      simp only [hst]
      rw [hrow]⟩
  · refine ⟨fun hc => OrderStatusFlag.noConfusion hc,
      fun _ => hcnt, ?_⟩
    obtain ⟨row, hrow⟩ := find?_of_filter_length_one hcnt
    exact ⟨.cancelled row.cancelled_by row.cancelled_time row.reason, by
      unfold getStatusNoValidation
      simp only [hst]
      rw [hrow]⟩

/-- Witness for C5: `db1` (one create step from the initial fixture) is
reachable, and its single order — `order1`, ORDERED — satisfies the
consistency properties. -/
theorem reachable_consistency_witness :
    (order1.status = .ORDERED →
      countCancelled db1 order1.id = 0 ∧
      countPreparing db1 order1.id = 0 ∧
      countReady db1 order1.id = 0 ∧ countSettled db1 order1.id = 0) ∧
    (order1.status ≠ .ORDERED → matchingSatCount db1 order1 = 1) ∧
    (∃ s, getStatusNoValidation db1 order1 = .ok s) :=
  reachable_consistency db1
    (Reachable.create db0 5 payloadOK 111
      (Reachable.init db0 rfl rfl rfl rfl rfl))
    order1 (by rw [show db1.orders = [order1] from rfl]
               exact List.mem_singleton.mpr rfl)

/-! ## C8 on reachable states -/

/-- A list whose matching sublist is empty has no search hit. -/
theorem find?_eq_none_of_filter_nil {α : Type} {l : List α}
    {p : α → Bool} (h : (l.filter p).length = 0) : l.find? p = none := by
  rw [List.find?_eq_none]
  intro x hx hpx
  rw [List.length_eq_zero] at h
  have hmem : x ∈ l.filter p := List.mem_filter.mpr ⟨hx, hpx⟩
  rw [h] at hmem
  cases hmem

/-- On an invariant-satisfying state, a successful update writes a
satellite kind with no pre-existing row for this order: each legal
transition's source status has count zero for the kind it writes. -/
theorem noPriorSat_of_update_ok {db : DB} (hinv : StrongInv db)
    {u : Nat} {role : Role} {oid : Nat} {upd : OrderStatusUpdate}
    {now : Nat}
    (hok : (update_order_status db u role oid upd now).2 = .ok ()) :
    noPriorSat db oid upd := by
  unfold update_order_status at hok
  cases hg : getOrderWithValidation db u role oid with
  | error e => simp only [hg] at hok; cases hok
  | ok order =>
    have hfind := getOrderWithValidation_ok hg
    have hid : order.id = oid := by simpa using List.find?_some hfind
    have hmem := List.mem_of_find?_eq_some hfind
    have hcnt := hinv.2.2 order hmem
    unfold SatCounts at hcnt
    rw [hid] at hcnt
    simp only [hg] at hok
    unfold noPriorSat
    cases role <;> cases upd <;> cases ho : order.status <;>
      simp only [ho] at hok hcnt <;> cases hok <;>
      first
      | exact find?_eq_none_of_filter_nil hcnt.1
      | exact find?_eq_none_of_filter_nil hcnt.2.1
      | exact find?_eq_none_of_filter_nil hcnt.2.2.2

/-- C8: after every successful status transition on a reachable state,
`get_order_status` by any authorized actor returns a status payload
whose fields equal the satellite row that transition just wrote: same
status kind, the transition's timestamp, and for a cancellation the
cancelling role and the verbatim reason. -/
theorem get_order_status_after_update (db : DB) (u : Nat) (role : Role)
    (oid : Nat) (upd : OrderStatusUpdate) (now : Nat) (u2 : Nat)
    (role2 : Role) (order2 : Order) (hreach : Reachable db)
    (hok : (update_order_status db u role oid upd now).2 = .ok ())
    (hauth : getOrderWithValidation
      (update_order_status db u role oid upd now).1 u2 role2 oid
      = .ok order2) :
    get_order_status (update_order_status db u role oid upd now).1 u2
      role2 oid = .ok (writtenStatus role upd now) :=
  getStatus_after_update_fresh db u role oid upd now u2 role2 order2 hok
    (noPriorSat_of_update_ok (reachable_inv hreach) hok) hauth

/-- Witness for C8: `db1` is reachable; after the customer's
cancellation of order 1, `get_order_status` returns the cancellation
payload with the verbatim reason and timestamp. -/
theorem get_order_status_after_update_witness :
    get_order_status
        (update_order_status db1 5 .CUSTOMER 1
          (.cancelled "changed my mind") 222).1 5 .CUSTOMER 1
      = .ok (writtenStatus .CUSTOMER (.cancelled "changed my mind") 222)
      :=
  get_order_status_after_update db1 5 .CUSTOMER 1
    (.cancelled "changed my mind") 222 5 .CUSTOMER order1c
    (Reachable.create db0 5 payloadOK 111
      (Reachable.init db0 rfl rfl rfl rfl rfl))
    rfl (by rfl)

end QuickDish
